import Mathlib

/-!
Verification of the ticker-resolution and metrics-enrichment pipeline of
`BestEmployerStockAnalysis.py`: the name normalizer's apostrophe-repair pass,
`get_ticker`, `get_stock_info` (retry loop), `filter_by_strategy`, and the
main enrichment loop with its three report projections.

Machine reals (Python floats for prices, market caps, P/E ratios) are
embedded as rationals; optional dictionary fields are `Option`s; the
external HTTP world is an explicit environment (one outcome per query).
-/

namespace BestEmployer

/-- The dictionary returned by `get_stock_info`.  The Python dict always
carries exactly these eight keys; `None` values are `Option.none`. -/
structure StockInfo where
  Ticker : String
  Name : Option String
  Sector : Option String
  Industry : Option String
  Price : Option ℚ
  MarketCap : Option ℚ
  PERatio : Option ℚ
  Error : Option String
deriving Repr, DecidableEq

/-- The optional fields of the `yfinance` `.info` dict that `get_stock_info`
reads (each via `.get`, so each is independently optional). -/
structure YfInfo where
  shortName : Option String
  sector : Option String
  industry : Option String
  currentPrice : Option ℚ
  marketCap : Option ℚ
  trailingPE : Option ℚ
deriving Repr, DecidableEq

/-- Outcome of one metrics query (`stock.info` access) for one attempt:
either the access raises (transport error, before any field is yielded),
or it yields an info dict whose fields are then all copied. -/
inductive FetchOutcome where
  | raises (msg : String)
  | yields (info : YfInfo)
deriving Repr, DecidableEq

/-- Python truthiness of the `Name` slot: `if info_to_return["Name"]:` is
false for `None` and for the empty string. -/
def isTruthyName : Option String → Bool
  | none => false
  | some s => s ≠ ""

/-- Embedding of the loop `for attempt in range(retries)` of `get_stock_info`.
Here `fuel` counts the iterations still to run (initially `retries`), `idx` is
the current value of `attempt`, `acc` is the mutable `info_to_return`.
Returns the dictionary together with the number of metrics queries issued.
`fuel = 0` is the loop falling through without a `return` (only possible
when `retries = 0`); the Python code then re-stores `info_to_return["Error"]`
via `.get("Error", ...)`, a no-op since the key is always present. -/
def attemptLoop (ticker : String) (attempts : Nat → FetchOutcome) :
    Nat → Nat → StockInfo → StockInfo × Nat
  | 0, _, acc => (acc, 0)
  | fuel + 1, idx, acc =>
    match attempts idx with
    | .yields info =>
      -- populate info_to_return with whatever is available
      let acc' : StockInfo :=
        { acc with
          Name := info.shortName
          Sector := info.sector
          Industry := info.industry
          Price := info.currentPrice
          MarketCap := info.marketCap
          PERatio := info.trailingPE }
      if isTruthyName acc'.Name then
        -- success: clear the error and return immediately
        ({ acc' with Error := none }, 1)
      else
        -- raise ValueError(...), caught by the except block below
        let msg := "Minimal info (Name) not received for " ++ ticker
        let acc'' := { acc' with Error := some msg }
        if fuel = 0 then
          -- attempt == retries - 1: return after the final failure
          (acc'', 1)
        else
          let r := attemptLoop ticker attempts fuel (idx + 1) acc''
          (r.1, r.2 + 1)
    | .raises msg =>
      -- the except block: store the error message
      let acc'' := { acc with Error := some msg }
      if fuel = 0 then
        (acc'', 1)
      else
        let r := attemptLoop ticker attempts fuel (idx + 1) acc''
        (r.1, r.2 + 1)

/-- Embedding of `get_stock_info(ticker, retries, ...)`.  The delays between attempts are
pure side effects and are elided; `attempts` gives the outcome of the
metrics query of each attempt index.  Returns the dictionary and the number
of metrics queries issued. -/
def get_stock_info (ticker : String) (retries : Nat)
    (attempts : Nat → FetchOutcome) : StockInfo × Nat :=
  let init : StockInfo :=
    { Ticker := ticker, Name := none, Sector := none, Industry := none
      Price := none, MarketCap := none, PERatio := none, Error := none }
  attemptLoop ticker attempts retries 0 init

/-- One candidate of the Yahoo lookup response's `quotes` list; both the
`quoteType` tag and the `symbol` are read via `.get`, hence optional. -/
structure Quote where
  quoteType : Option String
  symbol : Option String
deriving Repr, DecidableEq

/-- Outcome of the single lookup query of `get_ticker`: a transport or JSON
parse failure (the `except` branch), or a candidate list (`res.get("quotes",
[])`, empty when the key is absent). -/
inductive LookupOutcome where
  | fail
  | ok (quotes : List Quote)
deriving Repr, DecidableEq

/-- Embedding of the scan `for result in res.get("quotes", [])` of `get_ticker`: return
the `symbol` slot of the first candidate whose `quoteType` is `EQUITY`. -/
def scanQuotes : List Quote → Option String
  | [] => none
  | q :: rest =>
    if q.quoteType = some "EQUITY" then q.symbol else scanQuotes rest

/-- Embedding of `get_ticker(company_name)`.  Returns the resolved symbol (or `None`)
together with the number of lookup queries issued. -/
def get_ticker (lookup : LookupOutcome) : Option String × Nat :=
  match lookup with
  | .fail => (none, 1)
  | .ok quotes => (scanQuotes quotes, 1)

/-- Embedding of Python's `str.lower()` (ASCII case folding, applied
character by character; all strings this program lowercases are ASCII apart
from the right-single-quote variant, which both Python and this function
leave unchanged). -/
def pyLower (s : String) : String := ⟨s.data.map Char.toLower⟩

/-- The apostrophe-variant fragments recognized by the repair pass
(compared after lowercasing). -/
def apostropheVariants : List String := ["s", "\x27s", "’s"]

/-- The apostrophe-repair loop of `get_forbes_employers` (the `skip_next`
scan over `unique_companies`): when the next entry lowercases to one of the
variants, merge it into the current name as a standardized `'s` suffix and
skip it; otherwise keep the current name. -/
def fixApostrophes : List String → List String
  | [] => []
  | [current] => [current]
  | current :: next :: rest' =>
    if pyLower next ∈ apostropheVariants then
      (current ++ "\x27s") :: fixApostrophes rest'
    else
      current :: fixApostrophes (next :: rest')

/-- Common defensive sectors (from `filter_by_strategy`). -/
def defensive_sectors : List String :=
  ["Healthcare", "Utilities", "Consumer Defensive", "Communication Services"]

/-- Common cyclical sectors (from `filter_by_strategy`). -/
def cyclical_sectors : List String :=
  ["Industrials", "Consumer Cyclical", "Financial Services", "Real Estate", "Basic Materials"]

/-- Common growth sectors (from `filter_by_strategy`). -/
def growth_sectors : List String :=
  ["Technology", "Communication Services", "Healthcare", "Industrials"]

/-- Embedding of `df['Sector'].isin(sectors)`: an absent value (None/NaN) is
never a member. -/
def sectorIsin (o : Option String) (sectors : List String) : Bool :=
  match o with
  | some s => sectors.contains s
  | none => false

/-- Numeric value used by the sort on the `PE Ratio` column (every sorted
row has the field present, so the default is never observed). -/
def peVal (r : StockInfo) : ℚ := r.PERatio.getD 0

/-- Numeric value used by the sort on the `Market Cap` column. -/
def mcVal (r : StockInfo) : ℚ := r.MarketCap.getD 0

/-- Ascending `PE Ratio` order (`sort_values(by='PE Ratio', ascending=True)`). -/
def peAsc (a b : StockInfo) : Prop := peVal a ≤ peVal b

/-- Descending `PE Ratio` order (`sort_values(by='PE Ratio', ascending=False)`). -/
def peDesc (a b : StockInfo) : Prop := peVal b ≤ peVal a

/-- Descending `Market Cap` order (`sort_values(by='Market Cap', ascending=False)`). -/
def mcDesc (a b : StockInfo) : Prop := mcVal b ≤ mcVal a

instance : DecidableRel peAsc :=
  fun a b => inferInstanceAs (Decidable (peVal a ≤ peVal b))

instance : DecidableRel peDesc :=
  fun a b => inferInstanceAs (Decidable (peVal b ≤ peVal a))

instance : DecidableRel mcDesc :=
  fun a b => inferInstanceAs (Decidable (mcVal b ≤ mcVal a))

instance : IsTotal StockInfo peAsc := ⟨fun a b => le_total (peVal a) (peVal b)⟩

instance : IsTrans StockInfo peAsc := ⟨fun _ _ _ => le_trans⟩

instance : IsTotal StockInfo peDesc := ⟨fun a b => le_total (peVal b) (peVal a)⟩

instance : IsTrans StockInfo peDesc := ⟨fun _ _ _ h h' => le_trans h' h⟩

instance : IsTotal StockInfo mcDesc := ⟨fun a b => le_total (mcVal b) (mcVal a)⟩

instance : IsTrans StockInfo mcDesc := ⟨fun _ _ _ h h' => le_trans h' h⟩

/-- Row predicate of the defensive branch: sector membership, `PE Ratio`
present (`notna`), and `PE Ratio < 20` (false on an absent value, matching
pandas comparison with NaN). -/
def defensivePred (r : StockInfo) : Bool :=
  sectorIsin r.Sector defensive_sectors && r.PERatio.isSome && decide (peVal r < 20)

/-- Row predicate of the cyclical branch: sector membership and `Market Cap`
present. -/
def cyclicalPred (r : StockInfo) : Bool :=
  sectorIsin r.Sector cyclical_sectors && r.MarketCap.isSome

/-- Row predicate of the growth branch: sector membership, `PE Ratio`
present, and `PE Ratio > 25`. -/
def growthPred (r : StockInfo) : Bool :=
  sectorIsin r.Sector growth_sectors && r.PERatio.isSome && decide ((25 : ℚ) < peVal r)

/-- Embedding of `filter_by_strategy(df, strategy_type)`.  The table is the
list of rows; the second component of the result records whether the
unknown-strategy warning was printed.  An empty table short-circuits to an
empty result before the strategy name is examined.  pandas `sort_values` is
modelled by `insertionSort` (comparison sort on the same key). -/
def filter_by_strategy (df : List StockInfo) (strategy_type : String) :
    List StockInfo × Bool :=
  if df = [] then ([], false)
  else if pyLower strategy_type = "defensive" then
    (List.insertionSort peAsc (df.filter defensivePred), false)
  else if pyLower strategy_type = "cyclical" then
    (List.insertionSort mcDesc (df.filter cyclicalPred), false)
  else if pyLower strategy_type = "growth" then
    (List.insertionSort peDesc (df.filter growthPred), false)
  else
    -- warning: unknown strategy type, no filtering applied
    (df, true)

/-- One entry of `all_stock_data`: the `get_stock_info` dictionary extended
with the key `Original Company Name`. -/
structure EnrichedRow where
  info : StockInfo
  origCompanyName : String
deriving Repr, DecidableEq

/-- Embedding of the main enrichment loop: for each company, resolve a
ticker via `get_ticker`; only when a truthy ticker is found, fetch its stock
info (with `retries=3` as in the source) and append the row.  `lookupEnv`
gives each company's lookup-query outcome, `fetchEnv` each ticker's
metrics-query outcomes. -/
def mainLoop (companies : List String) (lookupEnv : String → LookupOutcome)
    (fetchEnv : String → Nat → FetchOutcome) : List EnrichedRow :=
  match companies with
  | [] => []
  | c :: rest =>
    match (get_ticker (lookupEnv c)).1 with
    | some t =>
      if t ≠ "" then
        { info := (get_stock_info t 3 (fetchEnv t)).1, origCompanyName := c } ::
          mainLoop rest lookupEnv fetchEnv
      else
        mainLoop rest lookupEnv fetchEnv
    | none => mainLoop rest lookupEnv fetchEnv

/-- The fixed display-column subset of the three sheets
(`output_cols_for_sheets = ["Name", "Ticker", "PE Ratio", "Price", "Sector"]`). -/
structure SheetRow where
  Name : Option String
  Ticker : String
  PERatio : Option ℚ
  Price : Option ℚ
  Sector : Option String
deriving Repr, DecidableEq

/-- Column projection applied to each row of a report sheet. -/
def toSheetRow (r : EnrichedRow) : SheetRow :=
  { Name := r.info.Name, Ticker := r.info.Ticker, PERatio := r.info.PERatio
    Price := r.info.Price, Sector := r.info.Sector }

/-- Membership filter of a report sheet:
`all_stock_data_df[all_stock_data_df['Original Company Name'].isin(names)]`. -/
def sheetFilter (rows : List EnrichedRow) (names : List String) : List EnrichedRow :=
  rows.filter (fun r => names.contains r.origCompanyName)

/-- Embedding of `forbes_final_df` (and, with the other list,
`greatplaces_final_df`): membership filter then column projection. -/
def sourceSheet (rows : List EnrichedRow) (names : List String) : List SheetRow :=
  (sheetFilter rows names).map toSheetRow

/-- Membership filter of the common-companies sheet: `common_companies` is
the intersection of the two source lists. -/
def commonFilter (rows : List EnrichedRow) (forbesList gptwList : List String) :
    List EnrichedRow :=
  rows.filter
    (fun r => forbesList.contains r.origCompanyName && gptwList.contains r.origCompanyName)

/-- Embedding of `common_final_df`: intersection filter then column
projection. -/
def commonSheet (rows : List EnrichedRow) (forbesList gptwList : List String) :
    List SheetRow :=
  (commonFilter rows forbesList gptwList).map toSheetRow

/-- A concrete enriched record used to instantiate universally quantified
theorems at a sample input. -/
def sampleRow : StockInfo :=
  { Ticker := "JNJ", Name := some "Johnson & Johnson", Sector := some "Healthcare"
    Industry := some "Drug Manufacturers", Price := some 150, MarketCap := some 400
    PERatio := some 15, Error := none }

/-! ### Helper lemmas about the retry loop -/

/-- The `Ticker` slot is written once at initialization and never touched by
the retry loop. -/
lemma attemptLoop_fst_Ticker (t : String) (att : Nat → FetchOutcome) :
    ∀ (fuel idx : Nat) (acc : StockInfo),
      ((attemptLoop t att fuel idx acc).1).Ticker = acc.Ticker := by
  intro fuel
  induction fuel with
  | zero => intro idx acc; rfl
  | succ f ih =>
    intro idx acc
    simp only [attemptLoop]
    cases att idx with
    | yields info =>
      by_cases hn : isTruthyName info.shortName
      · simp [hn]
      · by_cases hf : f = 0
        · simp [hn, hf]
        · simp [hn, hf, ih]
    | raises msg =>
      by_cases hf : f = 0
      · simp [hf]
      · simp [hf, ih]

/-- The retry loop issues at most one metrics query per remaining iteration. -/
lemma attemptLoop_snd_le (t : String) (att : Nat → FetchOutcome) :
    ∀ (fuel idx : Nat) (acc : StockInfo),
      (attemptLoop t att fuel idx acc).2 ≤ fuel := by
  intro fuel
  induction fuel with
  | zero => intro idx acc; exact Nat.le_refl 0
  | succ f ih =>
    intro idx acc
    simp only [attemptLoop]
    cases att idx with
    | yields info =>
      by_cases hn : isTruthyName info.shortName
      · simp [hn]
      · by_cases hf : f = 0
        · simp [hn, hf]
        · simp only [hn, hf, if_false, Bool.false_eq_true]
          exact Nat.succ_le_succ (ih (idx + 1) _)
    | raises msg =>
      by_cases hf : f = 0
      · simp [hf]
      · simp only [hf, if_false]
        exact Nat.succ_le_succ (ih (idx + 1) _)

/-- If the first `k` attempts fail (a raising query is always a failure; a
yielding query fails exactly when its display name is not truthy) and
attempt `k` yields a truthy display name, the retry loop returns at attempt
`k`: all data fields are taken from that response, the error slot is
cleared, and exactly `k + 1` queries are issued. -/
lemma attemptLoop_first_success (t : String) (att : Nat → FetchOutcome)
    (info : YfInfo) (hname : isTruthyName info.shortName = true) :
    ∀ (k fuel idx : Nat) (acc : StockInfo), k < fuel →
      (∀ j, j < k → ∀ i, att (idx + j) = .yields i → isTruthyName i.shortName = false) →
      att (idx + k) = .yields info →
      attemptLoop t att fuel idx acc =
        ({ Ticker := acc.Ticker, Name := info.shortName, Sector := info.sector,
           Industry := info.industry, Price := info.currentPrice,
           MarketCap := info.marketCap, PERatio := info.trailingPE,
           Error := none }, k + 1) := by
  intro k
  induction k with
  | zero =>
    intro fuel idx acc hk hfail hsucc
    match fuel, hk with
    | f + 1, _ =>
      rw [Nat.add_zero] at hsucc
      simp only [attemptLoop, hsucc, hname, if_true]
  | succ k ih =>
    intro fuel idx acc hk hfail hsucc
    match fuel, hk with
    | f + 1, hk =>
      have hkf : k < f := Nat.lt_of_succ_lt_succ hk
      have hf0 : ¬ f = 0 := by omega
      have hrec : ∀ (acc'' : StockInfo), acc''.Ticker = acc.Ticker →
          attemptLoop t att f (idx + 1) acc'' =
            ({ Ticker := acc.Ticker, Name := info.shortName, Sector := info.sector,
               Industry := info.industry, Price := info.currentPrice,
               MarketCap := info.marketCap, PERatio := info.trailingPE,
               Error := none }, k + 1) := by
        intro acc'' hT
        rw [ih f (idx + 1) acc'' hkf ?_ ?_, hT]
        · intro j hj i hij
          refine hfail (j + 1) (Nat.succ_lt_succ hj) i ?_
          rwa [show idx + (j + 1) = idx + 1 + j by omega]
        · rwa [show idx + 1 + k = idx + (k + 1) by omega]
      cases hidx : att idx with
      | yields i =>
        have hfi : isTruthyName i.shortName = false :=
          hfail 0 (Nat.succ_pos k) i (by rwa [Nat.add_zero])
        simp only [attemptLoop, hidx, hfi, Bool.false_eq_true, if_false, hf0]
        rw [hrec (StockInfo.mk acc.Ticker i.shortName i.sector i.industry
              i.currentPrice i.marketCap i.trailingPE
              (some ("Minimal info (Name) not received for " ++ t))) rfl]
      | raises msg =>
        simp only [attemptLoop, hidx, hf0, if_false]
        rw [hrec (StockInfo.mk acc.Ticker acc.Name acc.Sector acc.Industry
              acc.Price acc.MarketCap acc.PERatio (some msg)) rfl]

/-! ### Claim theorems -/

/-- C1: for every ticker and every `retries ≥ 1`, `get_stock_info` returns a
dictionary (in the embedding it is a total function into `StockInfo`, whose
eight fields are exactly the keys `Ticker`, `Name`, `Sector`, `Industry`,
`Price`, `Market Cap`, `PE Ratio`, `Error`; no exception escapes), issues at
most `retries` metrics queries, and the returned dictionary's `Ticker` equals
the input ticker. -/
theorem get_stock_info_total (ticker : String) (retries : Nat)
    (attempts : Nat → FetchOutcome) (_hr : 1 ≤ retries) :
    (get_stock_info ticker retries attempts).1.Ticker = ticker ∧
    (get_stock_info ticker retries attempts).2 ≤ retries :=
  ⟨attemptLoop_fst_Ticker ticker attempts retries 0 _,
   attemptLoop_snd_le ticker attempts retries 0 _⟩

/-- Witness for C1 at `ticker = "MCD"`, `retries = 3`, every attempt a
transport error. -/
theorem get_stock_info_total_witness :
    1 ≤ 3 ∧
    ((get_stock_info "MCD" 3 (fun _ => .raises "boom")).1.Ticker = "MCD" ∧
     (get_stock_info "MCD" 3 (fun _ => .raises "boom")).2 ≤ 3) :=
  ⟨by decide, get_stock_info_total "MCD" 3 (fun _ => .raises "boom") (by decide)⟩

/-- C2: with `retries = 3` and all three attempts failing with transport
errors (the query raises before yielding any field), the returned record has
`Ticker` set to the input, every data field `None`, and `Error` equal to the
third attempt's error text; exactly 3 queries are issued. -/
theorem get_stock_info_all_attempts_fail (t e1 e2 e3 : String) :
    get_stock_info t 3
      (fun i => if i = 0 then .raises e1 else if i = 1 then .raises e2 else .raises e3) =
    ({ Ticker := t, Name := none, Sector := none, Industry := none,
       Price := none, MarketCap := none, PERatio := none, Error := some e3 }, 3) := rfl

/-- C3: if every attempt before attempt `k` fails and the metrics response
of attempt `k` yields a truthy (non-empty, non-`None`) display name, then
`get_stock_info` populates the data fields from that response, sets `Error`
to `None` (clearing any error recorded by the earlier failed attempts), and
returns immediately: exactly `k + 1` queries are issued, so the remaining
`retries - (k + 1)` attempts are not spent. -/
theorem get_stock_info_first_success (ticker : String) (retries k : Nat)
    (attempts : Nat → FetchOutcome) (info : YfInfo)
    (hk : k < retries)
    (hfail : ∀ j, j < k → ∀ i, attempts j = .yields i → isTruthyName i.shortName = false)
    (hsucc : attempts k = .yields info)
    (hname : isTruthyName info.shortName = true) :
    get_stock_info ticker retries attempts =
      ({ Ticker := ticker, Name := info.shortName, Sector := info.sector,
         Industry := info.industry, Price := info.currentPrice,
         MarketCap := info.marketCap, PERatio := info.trailingPE,
         Error := none }, k + 1) := by
  refine attemptLoop_first_success ticker attempts info hname k retries 0 _ hk ?_ ?_
  · intro j hj i hij
    exact hfail j hj i (by rwa [Nat.zero_add] at hij)
  · rwa [Nat.zero_add]

/-- Witness for C3: first attempt raises, second attempt succeeds with a
response carrying name, sector and P/E; two of the three attempts spent. -/
theorem get_stock_info_first_success_witness :
    get_stock_info "AAPL" 3
      (fun i => if i = 0 then .raises "e0"
        else .yields (YfInfo.mk (some "Apple Inc.") (some "Technology") none none none (some 30))) =
      ({ Ticker := "AAPL", Name := some "Apple Inc.", Sector := some "Technology",
         Industry := none, Price := none, MarketCap := none, PERatio := some 30,
         Error := none }, 2) := by
  refine get_stock_info_first_success "AAPL" 3 1 _
    (YfInfo.mk (some "Apple Inc.") (some "Technology") none none none (some 30))
    (by decide) ?_ rfl (by decide)
  intro j hj i hij
  have hj0 : j = 0 := by omega
  subst hj0
  simp at hij

/-- C8: the apostrophe-repair pass maps `["McDonald", "'s", "Acme"]` to
`["McDonald's", "Acme"]`, and in general an entry immediately followed by a
fragment lowercasing to one of the apostrophe variants absorbs that single
fragment as a standardized possessive suffix, the scan resuming after the
consumed fragment. -/
theorem fixApostrophes_spec :
    (fixApostrophes ["McDonald", "\x27s", "Acme"] = ["McDonald\x27s", "Acme"]) ∧
    ∀ (x y : String) (rest : List String), pyLower y ∈ apostropheVariants →
      fixApostrophes (x :: y :: rest) = (x ++ "\x27s") :: fixApostrophes rest := by
  constructor
  · decide
  · intro x y rest h
    simp [fixApostrophes, h]

/-- Witness for C8: the general merge step applied at
`["McDonald", "'s", "Acme"]`. -/
theorem fixApostrophes_spec_witness :
    pyLower "\x27s" ∈ apostropheVariants ∧
    fixApostrophes ["McDonald", "\x27s", "Acme"] =
      ("McDonald" ++ "\x27s") :: fixApostrophes ["Acme"] :=
  ⟨by decide, fixApostrophes_spec.2 "McDonald" "\x27s" ["Acme"] (by decide)⟩

/-- C4 counterexample: on the empty table with an unknown strategy name, no
warning is signalled — the empty-table short-circuit returns before the
strategy name is examined — refuting the claim's "for every input table". -/
theorem filter_by_strategy_unknown_empty_no_warning :
    (filter_by_strategy [] "unknown").2 = false := rfl

/-- C4 (amended): for every NON-EMPTY input table, an unknown strategy name
(one not lowercasing to defensive, cyclical or growth) returns the input
table unchanged together with the warning signal; the empty table is
returned unchanged but without the warning. -/
theorem filter_by_strategy_unknown (df : List StockInfo) (s : String)
    (hdf : df ≠ [])
    (h1 : pyLower s ≠ "defensive") (h2 : pyLower s ≠ "cyclical")
    (h3 : pyLower s ≠ "growth") :
    filter_by_strategy df s = (df, true) := by
  simp [filter_by_strategy, hdf, h1, h2, h3]

/-- Witness for C4: the one-row table with strategy name `"unknown"`. -/
theorem filter_by_strategy_unknown_witness :
    filter_by_strategy [sampleRow] "unknown" = ([sampleRow], true) :=
  filter_by_strategy_unknown [sampleRow] "unknown" (by decide) (by decide)
    (by decide) (by decide)

/-- C5: the defensive strategy returns exactly the rows whose sector is one
of the defensive sectors and whose P/E ratio is present and strictly below
20 (a permutation of the row filter), ordered ascending by P/E ratio; every
returned row has the P/E ratio present. -/
theorem filter_by_strategy_defensive (df : List StockInfo) :
    ((filter_by_strategy df "defensive").1).Perm (df.filter defensivePred) ∧
    List.Sorted peAsc (filter_by_strategy df "defensive").1 ∧
    (filter_by_strategy df "defensive").1.all (fun r => r.PERatio.isSome) = true := by
  by_cases hdf : df = []
  · subst hdf
    exact ⟨List.Perm.refl _, List.sorted_nil, rfl⟩
  · have hlow : pyLower "defensive" = "defensive" := by decide
    simp only [filter_by_strategy, hdf, if_false, hlow, if_true]
    refine ⟨List.perm_insertionSort _ _, List.sorted_insertionSort _ _, ?_⟩
    rw [List.all_eq_true]
    intro r hr
    have hr' : r ∈ df.filter defensivePred := (List.mem_insertionSort _).mp hr
    have hp : defensivePred r = true := (List.mem_filter.mp hr').2
    simp only [defensivePred, Bool.and_eq_true] at hp
    exact hp.1.2

/-- C9: the strategy filter is a pure function of its two arguments — equal
arguments give equal (deterministic) output — and it only selects among the
rows of the input table (every output row is an input row; no row is
altered or fabricated). -/
theorem filter_by_strategy_pure (df : List StockInfo) (s : String) :
    filter_by_strategy df s = filter_by_strategy df s ∧
    ∀ r ∈ (filter_by_strategy df s).1, r ∈ df := by
  refine ⟨rfl, ?_⟩
  intro r hr
  unfold filter_by_strategy at hr
  by_cases hdf : df = []
  · simp [hdf] at hr
  · simp only [hdf, if_false] at hr
    by_cases h1 : pyLower s = "defensive"
    · rw [if_pos h1] at hr
      exact List.mem_of_mem_filter ((List.mem_insertionSort _).mp hr)
    · rw [if_neg h1] at hr
      by_cases h2 : pyLower s = "cyclical"
      · rw [if_pos h2] at hr
        exact List.mem_of_mem_filter ((List.mem_insertionSort _).mp hr)
      · rw [if_neg h2] at hr
        by_cases h3 : pyLower s = "growth"
        · rw [if_pos h3] at hr
          exact List.mem_of_mem_filter ((List.mem_insertionSort _).mp hr)
        · rw [if_neg h3] at hr
          exact hr

/-- Witness for C9 at the one-row table and the defensive strategy. -/
theorem filter_by_strategy_pure_witness :
    filter_by_strategy [sampleRow] "defensive" = filter_by_strategy [sampleRow] "defensive" ∧
    ∀ r ∈ (filter_by_strategy [sampleRow] "defensive").1, r ∈ [sampleRow] :=
  filter_by_strategy_pure [sampleRow] "defensive"

/-- C10: strategy-name matching is case-insensitive — any strategy string
lowercasing to defensive, cyclical or growth behaves exactly like its
lowercase form and does not take the unknown-strategy (warning) branch. -/
theorem filter_by_strategy_case_insensitive (df : List StockInfo) (s : String)
    (h : pyLower s = "defensive" ∨ pyLower s = "cyclical" ∨ pyLower s = "growth") :
    filter_by_strategy df s = filter_by_strategy df (pyLower s) ∧
    (filter_by_strategy df s).2 = false := by
  by_cases hdf : df = []
  · subst hdf; exact ⟨rfl, rfl⟩
  · have hdc : ("cyclical" : String) ≠ "defensive" := by decide
    have hgc : ("growth" : String) ≠ "defensive" := by decide
    have hgcy : ("growth" : String) ≠ "cyclical" := by decide
    rcases h with h | h | h
    · have hl : pyLower "defensive" = "defensive" := by decide
      simp [filter_by_strategy, hdf, h, hl]
    · have hl : pyLower "cyclical" = "cyclical" := by decide
      simp [filter_by_strategy, hdf, h, hl, hdc]
    · have hl : pyLower "growth" = "growth" := by decide
      simp [filter_by_strategy, hdf, h, hl, hgc, hgcy]

/-- Witness for C10: the casing `"Defensive"` on the one-row table. -/
theorem filter_by_strategy_case_insensitive_witness :
    filter_by_strategy [sampleRow] "Defensive" =
      filter_by_strategy [sampleRow] (pyLower "Defensive") ∧
    (filter_by_strategy [sampleRow] "Defensive").2 = false :=
  filter_by_strategy_case_insensitive [sampleRow] "Defensive" (Or.inl (by decide))

/-- C6: a company whose ticker resolution yields `None` contributes no row
to the enriched table and hence no row to any of the three report
projections (the sheets are column projections of these membership filters),
regardless of which source lists it appears in. -/
theorem unresolved_company_absent (companies : List String)
    (lookupEnv : String → LookupOutcome) (fetchEnv : String → Nat → FetchOutcome)
    (forbesList gptwList : List String) (c : String)
    (hc : (get_ticker (lookupEnv c)).1 = none) :
    (∀ r ∈ mainLoop companies lookupEnv fetchEnv, r.origCompanyName ≠ c) ∧
    (∀ r ∈ sheetFilter (mainLoop companies lookupEnv fetchEnv) forbesList,
      r.origCompanyName ≠ c) ∧
    (∀ r ∈ sheetFilter (mainLoop companies lookupEnv fetchEnv) gptwList,
      r.origCompanyName ≠ c) ∧
    (∀ r ∈ commonFilter (mainLoop companies lookupEnv fetchEnv) forbesList gptwList,
      r.origCompanyName ≠ c) := by
  have hmain : ∀ r ∈ mainLoop companies lookupEnv fetchEnv, r.origCompanyName ≠ c := by
    induction companies with
    | nil => intro r hr; simp [mainLoop] at hr
    | cons c' rest ih =>
      intro r hr
      by_cases hcc : c' = c
      · subst hcc
        rw [mainLoop, hc] at hr
        exact ih r hr
      · rw [mainLoop] at hr
        cases htk : (get_ticker (lookupEnv c')).1 with
        | none =>
          rw [htk] at hr
          exact ih r hr
        | some t =>
          rw [htk] at hr
          by_cases ht : t = ""
          · simp [ht] at hr
            exact ih r hr
          · simp [ht] at hr
            rcases hr with h1 | h1
            · rw [h1]
              simpa using hcc
            · exact ih r h1
  refine ⟨hmain, ?_, ?_, ?_⟩ <;> intro r hr
  · exact hmain r (List.mem_of_mem_filter hr)
  · exact hmain r (List.mem_of_mem_filter hr)
  · exact hmain r (List.mem_of_mem_filter hr)

/-- Witness for C6: the single company `"Unlisted Co"` with a failing
lookup, present in both source lists. -/
theorem unresolved_company_absent_witness :
    (∀ r ∈ mainLoop ["Unlisted Co"] (fun _ => .fail) (fun _ _ => .raises "e"),
      r.origCompanyName ≠ "Unlisted Co") ∧
    (∀ r ∈ sheetFilter (mainLoop ["Unlisted Co"] (fun _ => .fail) (fun _ _ => .raises "e"))
        ["Unlisted Co"], r.origCompanyName ≠ "Unlisted Co") ∧
    (∀ r ∈ sheetFilter (mainLoop ["Unlisted Co"] (fun _ => .fail) (fun _ _ => .raises "e"))
        ["Unlisted Co"], r.origCompanyName ≠ "Unlisted Co") ∧
    (∀ r ∈ commonFilter (mainLoop ["Unlisted Co"] (fun _ => .fail) (fun _ _ => .raises "e"))
        ["Unlisted Co"] ["Unlisted Co"], r.origCompanyName ≠ "Unlisted Co") :=
  unresolved_company_absent ["Unlisted Co"] (fun _ => .fail) (fun _ _ => .raises "e")
    ["Unlisted Co"] ["Unlisted Co"] "Unlisted Co" rfl

/-- C7: `get_ticker` issues exactly one lookup query per call (no retry at
this layer), a transport or parse failure of the lookup yields `None`, and
on a successful lookup the scan returns the `symbol` of the first candidate
whose `quoteType` is `EQUITY` (so `None` when there is no equity candidate,
or when the first equity candidate carries no symbol). -/
theorem get_ticker_spec :
    (∀ l, (get_ticker l).2 = 1) ∧
    (get_ticker .fail).1 = none ∧
    ∀ quotes, (get_ticker (.ok quotes)).1 =
      (quotes.find? (fun q => q.quoteType == some "EQUITY")).bind Quote.symbol := by
  refine ⟨?_, rfl, ?_⟩
  · intro l
    cases l <;> rfl
  · intro quotes
    induction quotes with
    | nil => rfl
    | cons q rest ih =>
      by_cases h : q.quoteType = some "EQUITY"
      · rw [show (get_ticker (.ok (q :: rest))).1 = q.symbol by
            simp [get_ticker, scanQuotes, h],
          List.find?_cons_of_pos _ (by simpa using h)]
        rfl
      · rw [show (get_ticker (.ok (q :: rest))).1 = (get_ticker (.ok rest)).1 by
            simp [get_ticker, scanQuotes, h],
          List.find?_cons_of_neg _ (by simpa using h)]
        exact ih

end BestEmployer
